import Mathlib

/-!
Verification of the SmsGPT message-handling core (`main.py`).

The pipeline relays inbound SMS text to a language model and returns the
reply as an outbound SMS. This file gives a shallow embedding of the core:
the inbound handler (authorization, trigger gate, deduplication), the
per-sender bounded conversation context, the model-query wrapper with its
fallback behaviour, the per-sender debounce of outbound replies, and the
round-robin gateway selector. Theorems below settle the specified
properties against these definitions.

Python strings are modelled as lists of characters (`Str`), matching
Python's view of a `str` as a sequence of code points; slicing, `strip()`,
`lower()` and `startswith` are the corresponding structural list
operations. Timestamps (`time.time()` seconds) are rationals.
-/

namespace SmsGPT

/-- A Python string: a sequence of code points. -/
abbrev Str : Type := List Char

/-- Python `str.strip()`: remove leading and trailing whitespace. -/
def strTrim (s : Str) : Str :=
  ((s.dropWhile Char.isWhitespace).reverse.dropWhile Char.isWhitespace).reverse

/-- Python `str.lower()` (on the characters the system handles). -/
def strLower (s : Str) : Str := s.map Char.toLower

/-- Python `s.startswith(p)`. -/
def strStartsWith : Str → Str → Bool
  | _, [] => true
  | [], _ :: _ => false
  | c :: s, p :: ps => c == p && strStartsWith s ps

/-! ## Constants (from the configuration section of `main.py`) -/

/-- Trigger word required at the start of an inbound message
(`TRIGGER_PREFIX = "Chat"` in the source; renamed here). -/
def TRIGGER_PREF : Str := "Chat".data

/-- `MAX_SMS_CHARS = 2400`: maximum characters of a reply before truncation. -/
def MAX_SMS_CHARS : Nat := 2400

/-- `REPEAT_TIMEOUT = 30`: seconds during which an identical message from the
same sender is ignored. -/
def REPEAT_TIMEOUT : ℚ := 30

/-- `MAX_CONTEXT_LEN = 10`: bound on the per-sender conversation history. -/
def MAX_CONTEXT_LEN : Nat := 10

/-- The debounce quiet period: `Timer(2.0, send_pending_reply, ...)`. -/
def QUIET_PERIOD : ℚ := 2

/-! ## Data model -/

/-- One conversation turn, `{"role": ..., "content": ...}`. -/
structure Turn where
  role : String
  content : Str
deriving DecidableEq

/-- The `recent_messages` map: sender to `(hash, timestamp)`; absence of a
key models a sender never recorded (the Python `.get` default `(None, 0)`,
whose `None` hash can never match an actual digest). -/
def RecentMap : Type := String → Option (Str × ℚ)

/-- `hashlib.sha256(content.encode()).hexdigest()`. The cryptographic hash is
modelled as an injective fingerprint of the raw text (SHA-256 collisions are
assumed not to occur), so the fingerprint is taken to be the text itself.
What matters for the theorems is that it is a function of the raw `content`
argument, exactly as in the source. -/
def sha256Hex (s : Str) : Str := s

/-! ## Dedup guard (lines 88-95 of `main.py`) -/

/-- The deduplication step of `incoming`:
`msg_hash = sha256(content)`; read `recent_messages.get(from_number, (None, 0))`;
reject iff the hash matches and `now - last_time < REPEAT_TIMEOUT`; on
acceptance overwrite the sender's record with `(msg_hash, now)`.
Returns the accept flag and the resulting `recent_messages` map. -/
def dedupAccept (recent : RecentMap) (from_number : String) (text : Str) (now : ℚ) :
    Bool × RecentMap :=
  let msg_hash := sha256Hex text
  match recent from_number with
  | some (last_hash, last_time) =>
    if msg_hash = last_hash ∧ now - last_time < REPEAT_TIMEOUT then
      (false, recent)
    else
      (true, fun k => if k = from_number then some (msg_hash, now) else recent k)
  | none =>
    (true, fun k => if k = from_number then some (msg_hash, now) else recent k)

/-! ## Inbound handler (`incoming`, lines 63-100) -/

/-- Outcome of the inbound handler, mirroring its four return paths
(`403 Unauthorized`, `200 Ignored`, `200 Duplicate ignored`, `200 OK` with a
worker spawned on the extracted prompt). -/
inductive HandleOutcome where
  | unauthorized
  | ignored
  | duplicateIgnored
  | accepted (prompt : Str)
deriving DecidableEq

/-- The `incoming` route handler, after payload decoding:
`if not from_number or from_number not in WHITELIST: 403`;
`if not content.strip().lower().startswith(TRIGGER_PREFIX.lower()): Ignored`;
then the dedup guard; on acceptance the prompt is
`content[len(TRIGGER_PREFIX):].strip()` (a slice of the raw `content`).
A missing `from_number` is modelled as the empty string (Python falsiness). -/
def incoming (wl : List String) (recent : RecentMap) (from_number : String)
    (content : Str) (now : ℚ) : HandleOutcome × RecentMap :=
  if from_number = "" ∨ from_number ∉ wl then
    (.unauthorized, recent)
  else if strStartsWith (strLower (strTrim content)) (strLower TRIGGER_PREF) then
    let res := dedupAccept recent from_number content now
    if res.1 then
      (.accepted (strTrim (content.drop TRIGGER_PREF.length)), res.2)
    else
      (.duplicateIgnored, recent)
  else
    (.ignored, recent)

/-! ## Context store (lines 136-138 and 150) -/

/-- The user-turn append of `get_deepseek_response`:
`user_contexts[from_number].append({"role": "user", "content": prompt})`
followed by the truncation
`if len(...) > MAX_CONTEXT_LEN: ... = ...[-MAX_CONTEXT_LEN:]`
(Python `l[-n:]` keeps the last `n` elements). -/
def appendUserTurn (ctx : List Turn) (prompt : Str) : List Turn :=
  let c := ctx ++ [{ role := "user", content := prompt }]
  if MAX_CONTEXT_LEN < c.length then c.drop (c.length - MAX_CONTEXT_LEN) else c

/-- The assistant-turn append at line 150:
`user_contexts[from_number].append({"role": "assistant", "content": reply})`.
Note: the source performs no truncation on this path. -/
def appendAssistantTurn (ctx : List Turn) (reply : Str) : List Turn :=
  ctx ++ [{ role := "assistant", content := reply }]

/-! ## Model query (`get_deepseek_response`, lines 129-157) -/

/-- Outcome of the HTTP call to the model backend, as observed by the code:
a `200` response with a well-formed body carrying the reply text; a non-`200`
response; or an exception raised by the call (network error, malformed body,
quota error, ...). -/
inductive ModelResponse where
  | success (content : Str)
  | httpError (status : Nat)
  | raise
deriving DecidableEq

/-- The fixed string returned on a non-`200` response (line 157). -/
def fallbackApiError : Str := "⚠️ DeepSeek API error. Try again later.".data

/-- The fixed string substituted by `process_prompt_with_delay` when
`get_deepseek_response` raises (line 112). -/
def fallbackUnavailable : Str :=
  "⚠️ DeepSeek is currently unavailable or quota has been exceeded.".data

/-- The truncation marker appended after cutting a long reply (line 153). -/
def truncationMarker : Str := "\n[...truncated]".data

/-- `get_deepseek_response(from_number, prompt)`, with the sender's context
passed explicitly and the backend's behaviour as a parameter. The user turn
is appended (and the context truncated) before the request is sent, so it is
present in every outcome, including an exception raised by the call. On a
`200` response the reply is `...['content'].strip()`, the assistant turn is
appended untruncated, and the returned reply is cut to `MAX_SMS_CHARS`
characters plus the marker when longer. On a non-`200` response the fixed
API-error string is returned. `Except.error` models a raised exception
propagating to the caller. -/
def get_deepseek_response (ctx : List Turn) (prompt : Str) (resp : ModelResponse) :
    Except Unit Str × List Turn :=
  let ctx1 := appendUserTurn ctx prompt
  match resp with
  | .success content =>
    let reply := strTrim content
    let ctx2 := appendAssistantTurn ctx1 reply
    let out :=
      if MAX_SMS_CHARS < reply.length then reply.take MAX_SMS_CHARS ++ truncationMarker
      else reply
    (.ok out, ctx2)
  | .httpError _ => (.ok fallbackApiError, ctx1)
  | .raise => (.error (), ctx1)

/-- The `try/except` of `process_prompt_with_delay` (lines 108-112): the reply
that gets scheduled is the model's answer, or the fixed unavailability string
when `get_deepseek_response` raised. -/
def process_prompt_reply (ctx : List Turn) (prompt : Str) (resp : ModelResponse) :
    Str × List Turn :=
  match get_deepseek_response ctx prompt resp with
  | (.ok r, c) => (r, c)
  | (.error _, c) => (fallbackUnavailable, c)

/-- Iterated accept-and-reply cycles for one sender, each with prompt `"p"`
and a successful backend answer `"r"`: the context evolution of repeated
calls to `get_deepseek_response` starting from an empty history. -/
def runSuccesses : Nat → List Turn
  | 0 => []
  | n + 1 => (get_deepseek_response (runSuccesses n) "p".data (.success "r".data)).2

/-! ## Debounce timer callback (`send_pending_reply`, lines 123-127) -/

/-- `send_pending_reply(from_number)`:
`reply = pending_replies.pop(from_number, None)`;
`send_timers.pop(from_number, None)`; `if reply: send_sms(...)`.
Returns the message handed to `send_sms` (if any) together with the updated
`pending_replies` and `send_timers` maps. Python truthiness: `None` and the
empty string both skip the send. -/
def send_pending_reply (pending : String → Option Str) (timers : String → Option Unit)
    (from_number : String) :
    Option Str × (String → Option Str) × (String → Option Unit) :=
  let reply := pending from_number
  let pending' := fun k => if k = from_number then none else pending k
  let timers' := fun k => if k = from_number then none else timers k
  match reply with
  | some r => (if r = [] then none else some r, pending', timers')
  | none => (none, pending', timers')

/-! ## Debounce trace semantics (lines 107-127, single sender)

`process_prompt_with_delay` ends by overwriting `pending_replies[from_number]`,
cancelling any existing timer for the sender and starting a fresh 2-second
timer running `send_pending_reply`. The state below tracks, for one sender,
the pending reply and the active timer's fire time. -/

/-- Per-sender debounce state: the pending reply (if any) and the deadline of
the active `Timer` (if any). -/
structure DebState where
  pending : Option Str
  deadline : Option ℚ
deriving DecidableEq

/-- Sequential semantics of the debounce logic for one sender. The input list
holds the completion times and computed replies of successive
`process_prompt_with_delay` calls, in chronological order. Between events, an
active timer fires iff its deadline is reached before (or at) the next
event's time; firing pops the pending reply and sends it iff it is non-empty
(the `if reply:` truthiness test in `send_pending_reply`). Each event
overwrites the pending reply, cancels the live timer and schedules a new one
for `QUIET_PERIOD` later. After the last event the remaining timer fires.
Returns the list of messages delivered, in order. -/
def runDebounce (st : DebState) : List (ℚ × Str) → List Str
  | [] =>
    match st.deadline, st.pending with
    | some _, some r => if r = [] then [] else [r]
    | _, _ => []
  | (t, reply) :: rest =>
    match st.deadline with
    | some d =>
      if d ≤ t then
        (match st.pending with
         | some r => if r = [] then [] else [r]
         | none => []) ++ runDebounce ⟨some reply, some (t + QUIET_PERIOD)⟩ rest
      else
        runDebounce ⟨some reply, some (t + QUIET_PERIOD)⟩ rest
    | none => runDebounce ⟨some reply, some (t + QUIET_PERIOD)⟩ rest

/-! ## Gateway selector (`pick_gateway`, lines 35-40) -/

/-- `pick_gateway()` against an explicit cursor: return `GATEWAYS[i]` and
advance the cursor to `(i + 1) % len(GATEWAYS)` under the lock. Out-of-range
indexing (impossible under the maintained invariant `i < len`) is modelled by
`Option`. -/
def pick_gateway {G : Type} (gws : List G) (i : Nat) : Option G × Nat :=
  (gws[i]?, (i + 1) % gws.length)

/-- `n` successive calls to `pick_gateway` from cursor `i`: the list of
returned descriptors and the final cursor. -/
def pickRun {G : Type} (gws : List G) : Nat → Nat → List (Option G) × Nat
  | i, 0 => ([], i)
  | i, n + 1 =>
    let step := pick_gateway gws i
    let rest := pickRun gws step.2 n
    (step.1 :: rest.1, rest.2)

/-! ## Spec-side definition used for comparison -/

/-- Following the claim's words (not the source): the prompt obtained from an
accepted text by removing the trigger word from the *trimmed* text and
trimming the remainder. -/
def specPrompt (content : Str) : Str :=
  strTrim ((strTrim content).drop TRIGGER_PREF.length)


/-! ## Theorems -/

/-- Claim C2: the dedup guard rejects `(sender, text, now)` iff a prior
record exists for the sender carrying the fingerprint of `text` with `now`
minus the recorded time strictly below `REPEAT_TIMEOUT`; every acceptance
(including the first-ever message from a sender) overwrites that sender's
record with the fingerprint and `now` while leaving other senders' records
alone; a rejection leaves the record map, and in particular the recorded
timestamp, unchanged. -/
theorem dedup_reject_iff_recent_same_hash (recent : RecentMap) (sender : String)
    (text : Str) (now : ℚ) :
    ((dedupAccept recent sender text now).1 = false ↔
      ∃ t, recent sender = some (sha256Hex text, t) ∧ now - t < REPEAT_TIMEOUT)
    ∧ ((dedupAccept recent sender text now).1 = true →
      (dedupAccept recent sender text now).2 sender = some (sha256Hex text, now)
      ∧ ∀ k, k ≠ sender → (dedupAccept recent sender text now).2 k = recent k)
    ∧ ((dedupAccept recent sender text now).1 = false →
      (dedupAccept recent sender text now).2 = recent) := by
  unfold dedupAccept
  cases hrec : recent sender with
  | none =>
    refine ⟨by simp [hrec], ?_, by simp⟩
    intro _
    exact ⟨by simp, fun k hk => by simp [hk]⟩
  | some p =>
    obtain ⟨h, t⟩ := p
    by_cases hc : sha256Hex text = h ∧ now - t < REPEAT_TIMEOUT
    · refine ⟨?_, ?_, ?_⟩
      · simp only [hrec, if_pos hc]
        exact ⟨fun _ => ⟨t, by rw [hc.1], hc.2⟩, fun _ => trivial⟩
      · simp [hrec, hc]
      · intro _
        simp [hrec, hc]
    · refine ⟨?_, ?_, ?_⟩
      · simp only [hrec, if_neg hc]
        constructor
        · intro hfalse
          exact absurd hfalse (by simp)
        · rintro ⟨t', heq, hlt⟩
          have hp := Option.some.inj heq
          have he1 : h = sha256Hex text := congrArg Prod.fst hp
          have he2 : t = t' := congrArg Prod.snd hp
          exact absurd ⟨he1.symm, by rw [he2]; exact hlt⟩ hc
      · intro _
        exact ⟨by simp [hrec, hc], fun k hk => by simp [hrec, hc, hk]⟩
      · intro hfalse
        simp [hrec, hc] at hfalse

/-- Witness for Claim C2: a first-ever message is accepted and recorded; an
identical message one second later is rejected with the map unchanged. -/
theorem dedup_reject_iff_recent_same_hash_witness :
    (dedupAccept (fun _ => none) "s" "m".data 0).2 "s" = some (sha256Hex "m".data, 0)
    ∧ (dedupAccept (fun k => if k = "s" then some (sha256Hex "m".data, 0) else none)
        "s" "m".data 1).2
      = (fun k => if k = "s" then some (sha256Hex "m".data, 0) else none) :=
  ⟨((dedup_reject_iff_recent_same_hash (fun _ => none) "s" "m".data 0).2.1 (by decide)).1,
   (dedup_reject_iff_recent_same_hash
      (fun k => if k = "s" then some (sha256Hex "m".data, 0) else none) "s" "m".data 1).2.2
      (by norm_num [dedupAccept, sha256Hex, REPEAT_TIMEOUT])⟩

/-- Claim C5: on every model-query failure — a non-200 HTTP status or a
raised exception (network error or otherwise) — the pipeline does not
propagate the error: the scheduled reply is the corresponding fixed fallback
string, and the context receives no assistant turn — it is exactly the
context after the user-turn append (the user turn remains; the fallback is
not recorded). -/
theorem backend_failure_fixed_fallback (ctx : List Turn) (prompt : Str)
    (resp : ModelResponse) :
    (∀ s, resp = .httpError s →
      process_prompt_reply ctx prompt resp = (fallbackApiError, appendUserTurn ctx prompt))
    ∧ (resp = .raise →
      process_prompt_reply ctx prompt resp = (fallbackUnavailable, appendUserTurn ctx prompt)) := by
  constructor
  · rintro s rfl
    rfl
  · rintro rfl
    rfl

/-- Witness for Claim C5: both failure modes at a concrete input. -/
theorem backend_failure_fixed_fallback_witness :
    process_prompt_reply [] "p".data (.httpError 500)
      = (fallbackApiError, appendUserTurn [] "p".data)
    ∧ process_prompt_reply [] "p".data .raise
      = (fallbackUnavailable, appendUserTurn [] "p".data) :=
  ⟨(backend_failure_fixed_fallback [] "p".data (.httpError 500)).1 500 rfl,
   (backend_failure_fixed_fallback [] "p".data .raise).2 rfl⟩

/-- Claim C6: on a successful model response, the reply handed onward is the
extracted reply unchanged when its length is at most `MAX_SMS_CHARS`, and
otherwise its first `MAX_SMS_CHARS` characters followed by the truncation
marker — so the truncated delivery has exactly
`MAX_SMS_CHARS + truncationMarker.length` characters — while the assistant
turn appended to the context is the untruncated full reply. -/
theorem long_reply_truncated_for_delivery (ctx : List Turn) (prompt content : Str) :
    (get_deepseek_response ctx prompt (.success content)).1 =
      .ok (if MAX_SMS_CHARS < (strTrim content).length
           then (strTrim content).take MAX_SMS_CHARS ++ truncationMarker
           else strTrim content)
    ∧ (get_deepseek_response ctx prompt (.success content)).2 =
      appendAssistantTurn (appendUserTurn ctx prompt) (strTrim content)
    ∧ (MAX_SMS_CHARS < (strTrim content).length →
      ((strTrim content).take MAX_SMS_CHARS ++ truncationMarker).length
        = MAX_SMS_CHARS + truncationMarker.length) := by
  refine ⟨rfl, rfl, ?_⟩
  intro hlong
  rw [List.length_append, List.length_take, min_eq_left (le_of_lt hlong)]

/-- Dropping under a predicate that fails on the replicated element leaves a
replicated list unchanged. -/
theorem dropWhile_replicate_false (p : Char → Bool) (c : Char) (hp : p c = false) (n : Nat) :
    List.dropWhile p (List.replicate n c) = List.replicate n c := by
  cases n with
  | zero => rfl
  | succ m => simp [List.replicate_succ, List.dropWhile_cons, hp]

/-- A replicated non-whitespace character is untouched by `strip()`. -/
theorem strTrim_replicate (n : Nat) :
    strTrim (List.replicate n 'a') = List.replicate n 'a' := by
  unfold strTrim
  rw [dropWhile_replicate_false _ _ (by decide), List.reverse_replicate,
    dropWhile_replicate_false _ _ (by decide), List.reverse_replicate]

/-- Witness for Claim C6: a 2401-character reply is cut to exactly 2400
characters plus the marker. -/
theorem long_reply_truncated_for_delivery_witness :
    ((strTrim (List.replicate 2401 'a')).take MAX_SMS_CHARS ++ truncationMarker).length
      = MAX_SMS_CHARS + truncationMarker.length :=
  (long_reply_truncated_for_delivery [] "p".data (List.replicate 2401 'a')).2.2 (by
    rw [strTrim_replicate, List.length_replicate]
    norm_num [MAX_SMS_CHARS])

/-- Claim C9: when the timer callback finds an empty-string pending reply, it
removes the map entry but performs no outbound delivery: the send is guarded
by Python truthiness of the reply value, not by presence of the entry. -/
theorem empty_pending_reply_dropped (pending : String → Option Str)
    (timers : String → Option Unit) (s : String) (h : pending s = some []) :
    (send_pending_reply pending timers s).1 = none
    ∧ (send_pending_reply pending timers s).2.1 s = none := by
  unfold send_pending_reply
  rw [h]
  exact ⟨rfl, by simp⟩

/-- Witness for Claim C9. -/
theorem empty_pending_reply_dropped_witness :
    (send_pending_reply (fun k => if k = "t" then some [] else none) (fun _ => none) "t").1 = none
    ∧ (send_pending_reply (fun k => if k = "t" then some [] else none)
        (fun _ => none) "t").2.1 "t" = none :=
  empty_pending_reply_dropped (fun k => if k = "t" then some [] else none)
    (fun _ => none) "t" (by decide)

/-- Claim C8 counterexample: a pending entry exists for the sender (the empty
string left by a whitespace-only model reply), the callback consumes it, yet
nothing is handed to the outbound delivery path — refuting that an existing
pending reply is always handed onward when the timer fires. -/
theorem pending_taken_but_not_delivered :
    (fun k => if k = "s" then some ([] : Str) else none) "s" = some []
    ∧ (send_pending_reply (fun k => if k = "s" then some [] else none)
        (fun _ => none) "s").1 = none :=
  ⟨by decide, by decide⟩

/-- Claim C8 (amended): when the timer fires, the callback removes the
sender's pending reply exactly once and hands it to delivery provided it is
non-empty; if no pending reply exists it performs no delivery and does not
crash; and since the entry is removed, a second firing finds nothing — a
given pending reply is never delivered twice. -/
theorem timer_fire_takes_pending_once (pending : String → Option Str)
    (timers : String → Option Unit) (s : String) :
    (∀ r, pending s = some r → r ≠ [] →
      (send_pending_reply pending timers s).1 = some r)
    ∧ (pending s = none → (send_pending_reply pending timers s).1 = none)
    ∧ (send_pending_reply pending timers s).2.1 s = none
    ∧ (send_pending_reply (send_pending_reply pending timers s).2.1
        (send_pending_reply pending timers s).2.2 s).1 = none := by
  refine ⟨?_, ?_, ?_, ?_⟩
  · intro r hr hne
    simp [send_pending_reply, hr, hne]
  · intro hn
    simp [send_pending_reply, hn]
  · cases hp : pending s <;> simp [send_pending_reply, hp]
  · cases hp : pending s <;> simp [send_pending_reply, hp]

/-- Witness for Claim C8 (amended): a non-empty pending reply is delivered;
an absent one is not. -/
theorem timer_fire_takes_pending_once_witness :
    (send_pending_reply (fun k => if k = "s" then some "hi".data else none)
      (fun _ => none) "s").1 = some "hi".data
    ∧ (send_pending_reply (fun _ => none) (fun _ => none) "x").1 = none :=
  ⟨(timer_fire_takes_pending_once (fun k => if k = "s" then some "hi".data else none)
      (fun _ => none) "s").1 "hi".data (by decide) (by decide),
   (timer_fire_takes_pending_once (fun _ => none) (fun _ => none) "x").2.1 rfl⟩


/-- Claim C1 counterexample: running six user-and-assistant cycles from an
empty history (each append completing exactly as in the source) leaves the
context with 11 turns — the assistant append at line 150 performs no
truncation, so the `MAX_CONTEXT_LEN` bound is exceeded right after that
append operation completes. -/
theorem context_exceeds_bound_after_assistant_append :
    MAX_CONTEXT_LEN < (runSuccesses 6).length := by decide

/-- Claim C1 (amended): a user-turn append never leaves more than
`MAX_CONTEXT_LEN` turns, and appending to a full (length-`MAX_CONTEXT_LEN`)
context drops exactly the oldest turn while preserving the order of the
survivors — the new oldest turn is the previously second-oldest; the
assistant-turn append, however, performs no truncation, so immediately after
it the context may hold `MAX_CONTEXT_LEN + 1` turns (the bound is restored
only at the next user-turn append). -/
theorem context_window_bound (ctx : List Turn) (prompt reply : Str) :
    (appendUserTurn ctx prompt).length ≤ MAX_CONTEXT_LEN
    ∧ (ctx.length = MAX_CONTEXT_LEN →
      appendUserTurn ctx prompt
        = ctx.drop 1 ++ [{ role := "user", content := prompt }])
    ∧ (appendAssistantTurn ctx reply).length = ctx.length + 1 := by
  refine ⟨?_, ?_, ?_⟩
  · unfold appendUserTurn
    by_cases hlen : MAX_CONTEXT_LEN
        < (ctx ++ [({ role := "user", content := prompt } : Turn)]).length
    · rw [if_pos hlen, List.length_drop]
      omega
    · rw [if_neg hlen]
      omega
  · intro hfull
    unfold appendUserTurn
    have hlen : (ctx ++ [({ role := "user", content := prompt } : Turn)]).length
        = MAX_CONTEXT_LEN + 1 := by
      simp [hfull]
    rw [if_pos (by omega), hlen, Nat.add_sub_cancel_left,
      List.drop_append_eq_append_drop, hfull]
    norm_num [MAX_CONTEXT_LEN]
  · unfold appendAssistantTurn
    simp

/-- Witness for Claim C1 (amended): appending an 11th user turn to a full
10-turn context keeps the bound and drops the oldest turn. -/
theorem context_window_bound_witness :
    (appendUserTurn (List.replicate 10 ({ role := "user", content := "x".data } : Turn))
        "p".data).length ≤ MAX_CONTEXT_LEN
    ∧ appendUserTurn (List.replicate 10 ({ role := "user", content := "x".data } : Turn)) "p".data
      = (List.replicate 10 ({ role := "user", content := "x".data } : Turn)).drop 1
        ++ [{ role := "user", content := "p".data }] :=
  ⟨(context_window_bound _ "p".data "r".data).1,
   (context_window_bound _ "p".data "r".data).2.1 (by simp [MAX_CONTEXT_LEN])⟩

/-- Claim C3 counterexample: for an allow-listed sender and raw text
`" Chat hi"` (leading whitespace; trigger word present after trimming), the
gate passes but the prompt handed to the worker is `"t hi"` — the slice
`content[len(TRIGGER_PREFIX):]` cuts four characters off the *raw* text —
whereas removing the trigger word from the accepted (trimmed) text as the
claim states yields `"hi"`. -/
theorem prompt_differs_from_stripped_text :
    (incoming ["+1"] (fun _ => none) "+1" " Chat hi".data 0).1 = .accepted "t hi".data
    ∧ specPrompt " Chat hi".data = "hi".data
    ∧ "t hi".data ≠ "hi".data :=
  ⟨by decide, by decide, by decide⟩

/-- Claim C3 (amended): for an allow-listed sender, the trigger gate rejects
with `Ignored` exactly when the trimmed, lowercased raw text does not start
with the lowercased trigger word; and every accepted prompt equals the raw
text with its first `len(TRIGGER_PREFIX)` characters removed and the rest
trimmed — which coincides with stripping the trigger word from the trimmed
text only when the raw text has no leading whitespace. -/
theorem trigger_gate_and_prompt (wl : List String) (recent : RecentMap)
    (sender : String) (content : Str) (now : ℚ)
    (hwl : sender ∈ wl) (hs : sender ≠ "") :
    ((incoming wl recent sender content now).1 = .ignored ↔
      strStartsWith (strLower (strTrim content)) (strLower TRIGGER_PREF) = false)
    ∧ ∀ p, (incoming wl recent sender content now).1 = .accepted p →
      p = strTrim (content.drop TRIGGER_PREF.length) := by
  have hauth : ¬(sender = "" ∨ sender ∉ wl) := by
    push_neg
    exact ⟨hs, hwl⟩
  cases hgate : strStartsWith (strLower (strTrim content)) (strLower TRIGGER_PREF) with
  | false =>
    refine ⟨by simp [incoming, hauth, hgate], ?_⟩
    intro p hp
    simp [incoming, hauth, hgate] at hp
  | true =>
    refine ⟨?_, ?_⟩
    · cases hded : (dedupAccept recent sender content now).1 <;>
        simp [incoming, hauth, hgate, hded]
    · intro p hp
      cases hded : (dedupAccept recent sender content now).1 <;>
        simp [incoming, hauth, hgate, hded] at hp
      exact hp.symm

/-- Witness for Claim C3 (amended): the differently-cased text `"CHAT  yo"`
(no leading whitespace) is accepted, and its prompt is the trimmed slice. -/
theorem trigger_gate_and_prompt_witness :
    ("yo".data : Str) = strTrim ("CHAT  yo".data.drop TRIGGER_PREF.length) :=
  (trigger_gate_and_prompt ["a"] (fun _ => none) "a" "CHAT  yo".data 0
    (by decide) (by decide)).2 "yo".data (by decide)

/-- Claim C10: the dedup fingerprint is computed over the raw inbound text
before trimming and slicing, so two messages from the same (previously
unrecorded) sender with different raw text — even when both reduce to the
identical prompt, e.g. by a differently-cased trigger word or extra
whitespace — are never flagged as duplicates, regardless of timing. -/
theorem dedup_keyed_on_raw_text (wl : List String) (recent : RecentMap)
    (sender : String) (t1 t2 : Str) (now1 now2 : ℚ)
    (hwl : sender ∈ wl) (hs : sender ≠ "") (h0 : recent sender = none)
    (hraw : t1 ≠ t2)
    (_hprompt : strTrim (t1.drop TRIGGER_PREF.length)
      = strTrim (t2.drop TRIGGER_PREF.length)) :
    (incoming wl (incoming wl recent sender t1 now1).2 sender t2 now2).1
      ≠ .duplicateIgnored := by
  have hauth : ¬(sender = "" ∨ sender ∉ wl) := by
    push_neg
    exact ⟨hs, hwl⟩
  have hrec1 : (incoming wl recent sender t1 now1).2 sender = none
      ∨ (incoming wl recent sender t1 now1).2 sender = some (sha256Hex t1, now1) := by
    cases hgate : strStartsWith (strLower (strTrim t1)) (strLower TRIGGER_PREF) with
    | false =>
      left
      simp [incoming, hauth, hgate, h0]
    | true =>
      right
      simp [incoming, hauth, hgate, dedupAccept, h0]
  set R := (incoming wl recent sender t1 now1).2 with hRdef
  cases hgate2 : strStartsWith (strLower (strTrim t2)) (strLower TRIGGER_PREF) with
  | false => simp [incoming, hauth, hgate2]
  | true =>
    cases hrec1 with
    | inl hn => simp [incoming, hauth, hgate2, dedupAccept, hn]
    | inr hsome =>
      have hne : sha256Hex t2 ≠ sha256Hex t1 := fun hh =>
        hraw (by simpa [sha256Hex] using hh.symm)
      simp [incoming, hauth, hgate2, dedupAccept, hsome, hne]

/-- Witness for Claim C10: `"Chat hi"` then `"chat hi"` one second later —
identical prompt, different raw text — and the second is not a duplicate. -/
theorem dedup_keyed_on_raw_text_witness :
    (incoming ["a"] (incoming ["a"] (fun _ => none) "a" "Chat hi".data 0).2
      "a" "chat hi".data 1).1 ≠ .duplicateIgnored :=
  dedup_keyed_on_raw_text ["a"] (fun _ => none) "a" "Chat hi".data "chat hi".data 0 1
    (by decide) (by decide) rfl (by decide) (by decide)


/-- Claim C4 counterexample: two accept-and-reply cycles for one sender,
one second apart (within the 2-second quiet period), where the later
computed reply is the empty string: no outbound delivery occurs at all,
refuting that exactly one delivery always occurs. -/
theorem debounce_empty_later_reply :
    runDebounce ⟨none, none⟩ [(0, "a".data), (1, [])] = []
    ∧ (1 : ℚ) - 0 < QUIET_PERIOD := by
  constructor
  · norm_num [runDebounce, QUIET_PERIOD]
  · norm_num [QUIET_PERIOD]

/-- Claim C4 (amended): when two accept-and-reply cycles for the same sender
complete within the quiet period of each other, the earlier reply is never
delivered — exactly one delivery occurs carrying the later reply, provided
the later reply is non-empty; an empty later reply is silently dropped and
nothing is delivered. -/
theorem debounce_last_write_wins (t1 t2 : ℚ) (r1 r2 : Str)
    (_hle : t1 ≤ t2) (hq : t2 - t1 < QUIET_PERIOD) :
    runDebounce ⟨none, none⟩ [(t1, r1), (t2, r2)]
      = if r2 = [] then [] else [r2] := by
  have hnf : ¬(t1 + QUIET_PERIOD ≤ t2) := by
    intro hcon
    linarith
  simp [runDebounce, hnf]

/-- Witness for Claim C4 (amended): replies at times 0 and 1; only the later
one, `"b"`, is delivered. -/
theorem debounce_last_write_wins_witness :
    runDebounce ⟨none, none⟩ [(0, "a".data), (1, "b".data)]
      = if ("b".data : Str) = [] then [] else ["b".data] :=
  debounce_last_write_wins 0 1 "a".data "b".data (by norm_num)
    (by norm_num [QUIET_PERIOD])

/-- Splitting a run of `a + b` selector calls at the `a`-th call. -/
theorem pickRun_add {G : Type} (gws : List G) (i a b : Nat) :
    pickRun gws i (a + b)
      = ((pickRun gws i a).1 ++ (pickRun gws (pickRun gws i a).2 b).1,
         (pickRun gws (pickRun gws i a).2 b).2) := by
  induction a generalizing i with
  | zero => simp [pickRun]
  | succ m ih =>
    have h1 : m + 1 + b = (m + b) + 1 := by omega
    rw [h1]
    simp only [pickRun]
    rw [ih]
    simp

/-- Unfolding lemma: a run of zero selector calls. -/
theorem pickRun_zero {G : Type} (gws : List G) (i : Nat) : pickRun gws i 0 = ([], i) := rfl

/-- Unfolding lemma: a run of `n + 1` selector calls. -/
theorem pickRun_succ {G : Type} (gws : List G) (i n : Nat) :
    pickRun gws i (n + 1)
      = (gws[i]? :: (pickRun gws ((i + 1) % gws.length) n).1,
        (pickRun gws ((i + 1) % gws.length) n).2) := rfl

/-- A run that stays inside the tail of the list: `m` calls from cursor `j`
with `j + m ≤ N` return the slice of `gws` from `j` of length `m`, leaving
the cursor at `(j + m) % N`. -/
theorem pickRun_no_wrap {G : Type} (gws : List G) (j m : Nat)
    (hj : j < gws.length) (hm : j + m ≤ gws.length) :
    pickRun gws j m = (((gws.drop j).take m).map some, (j + m) % gws.length) := by
  induction m generalizing j with
  | zero =>
    rw [pickRun_zero, Nat.add_zero, Nat.mod_eq_of_lt hj]
    rfl
  | succ m ih =>
    rw [pickRun_succ]
    by_cases hj1 : j + 1 < gws.length
    · have hmod : (j + 1) % gws.length = j + 1 := Nat.mod_eq_of_lt hj1
      rw [hmod, ih (j + 1) hj1 (by omega)]
      have hidx : j + 1 + m = j + (m + 1) := by omega
      rw [hidx, List.getElem?_eq_getElem hj, List.drop_eq_getElem_cons hj,
        List.take_succ_cons, List.map_cons]
    · have hm0 : m = 0 := by omega
      subst hm0
      rw [pickRun_zero, List.getElem?_eq_getElem hj, List.drop_eq_getElem_cons hj]
      rfl

/-- Claim C7: from any in-range cursor `i`, `N = gws.length` successive
selector calls return every configured gateway exactly once, in list order
cyclically from position `i` (the rotation `drop i ++ take i`, a permutation
of the configured list), the cursor returns to `i`, and the `(N+1)`-th call
repeats the first selection. -/
theorem round_robin_cycle {G : Type} (gws : List G) (i : Nat) (hi : i < gws.length) :
    (pickRun gws i gws.length).1 = (gws.drop i ++ gws.take i).map some
    ∧ (pickRun gws i gws.length).2 = i
    ∧ (gws.drop i ++ gws.take i).Perm gws
    ∧ (pickRun gws i (gws.length + 1)).1
      = (gws.drop i ++ gws.take i).map some ++ [gws[i]?] := by
  have hpos : 0 < gws.length := Nat.lt_of_le_of_lt (Nat.zero_le i) hi
  have e1 : i + (gws.length - i) = gws.length := by omega
  have e2 : gws.length - i + i = gws.length := by omega
  have hdt : (gws.drop i).take (gws.length - i) = gws.drop i := by
    rw [← List.length_drop]
    exact List.take_length _
  have h1 : pickRun gws i (gws.length - i) = ((gws.drop i).map some, 0) := by
    rw [pickRun_no_wrap gws i (gws.length - i) hi (by omega), hdt, e1, Nat.mod_self]
  have h2 : pickRun gws 0 i = ((gws.take i).map some, i) := by
    rw [pickRun_no_wrap gws 0 i hpos (by omega)]
    simp [Nat.mod_eq_of_lt hi]
  have hrun : pickRun gws i gws.length = ((gws.drop i ++ gws.take i).map some, i) := by
    have hadd := pickRun_add gws i (gws.length - i) i
    rw [e2] at hadd
    simp only [h1, h2] at hadd
    simpa [List.map_append] using hadd
  have hone : pickRun gws i 1 = ([gws[i]?], (i + 1) % gws.length) := by
    simp [pickRun, pick_gateway]
  have hrun1 : pickRun gws i (gws.length + 1)
      = ((gws.drop i ++ gws.take i).map some ++ [gws[i]?],
        (i + 1) % gws.length) := by
    have hadd := pickRun_add gws i gws.length 1
    simp only [hrun, hone] at hadd
    exact hadd
  refine ⟨by rw [hrun], by rw [hrun], ?_, by rw [hrun1]⟩
  exact List.Perm.trans List.perm_append_comm
    (by rw [List.take_append_drop])

/-- Witness for Claim C7: three gateways, cursor 1: the three calls return
gateways 1, 2, 0 and the cursor returns to 1. -/
theorem round_robin_cycle_witness :
    (pickRun ([0, 1, 2] : List ℕ) 1 (List.length ([0, 1, 2] : List ℕ))).1
      = (([0, 1, 2] : List ℕ).drop 1 ++ ([0, 1, 2] : List ℕ).take 1).map some
    ∧ (pickRun ([0, 1, 2] : List ℕ) 1 (List.length ([0, 1, 2] : List ℕ))).2 = 1 :=
  ⟨(round_robin_cycle ([0, 1, 2] : List ℕ) 1 (by norm_num)).1,
   (round_robin_cycle ([0, 1, 2] : List ℕ) 1 (by norm_num)).2.1⟩

end SmsGPT
